import Mathlib

/-!
Shallow embedding of fw/platforms/esp8266/src/esp_updater.c (mongoose-os OTA
updater for the ESP8266) and proofs about its update engine.

Modelling conventions:
- C unsigned 32-bit arithmetic is modelled with Nat; where the C code can
  genuinely wrap (the uint32 subtractions in mgos_upd_file_data) the wrap is
  made explicit with usub32.  Flash addresses and sizes on this platform are
  far below 2^32; theorems that need freedom from wrap carry explicit bounds.
- External collaborators (spi flash driver, SHA1, rboot persistence, JSON
  tokenizer) are modelled as data: flash writes and erases are recorded as
  event lists, the checksum verifier is an oracle function passed to the
  operations that call it, manifest tokens arrive pre-parsed, and the rboot
  configuration store and the lazily-initialized cache of get_rboot_config
  are explicit state (BootSys).
- Functions keep the names of the C functions they embed.
-/

/-- FW_SLOT_SIZE from esp_updater.c (0x100000). -/
def FW_SLOT_SIZE : Nat := 1048576

/-- UPDATER_MIN_BLOCK_SIZE from esp_updater.c. -/
def UPDATER_MIN_BLOCK_SIZE : Nat := 2048

/-- FLASH_SECTOR_SIZE on the esp8266 platform (4 KiB). -/
def FLASH_SECTOR_SIZE : Nat := 4096

/-- FLASH_ERASE_BLOCK_SIZE on the esp8266 platform (64 KiB). -/
def FLASH_ERASE_BLOCK_SIZE : Nat := 65536

/-- Modulus of 32-bit machine integers. -/
def U32 : Nat := 4294967296

/-- uint32 subtraction with two's complement wrap, as the C code computes it. -/
def usub32 (a b : Nat) : Nat := (a % U32 + U32 - b % U32) % U32

/-- Pointwise update of an array modelled as a function. -/
def upd (f : Nat → Nat) (i v : Nat) : Nat → Nat := fun j => if j = i then v else f j

/-- Which of the three part_info slots of struct mgos_upd_ctx is meant. -/
inductive PartTag where
  | fw
  | fs
  | fsDir
deriving DecidableEq

/-- struct part_info together with its embedded struct file_info.
The spiffs_file handle of file_info is unused by the updater and omitted. -/
structure PartInfo where
  addr : Nat
  size : Int
  done : Bool
  sha1_sum : String
  file_name : String
  fi_size : Nat
deriving DecidableEq

/-- The zero-initialized part_info produced by calloc in mgos_upd_ctx_create. -/
def PartInfo.init : PartInfo :=
  { addr := 0, size := 0, done := false, sha1_sum := "", file_name := "", fi_size := 0 }

/-- The fields of struct mgos_upd_file_info that the updater reads. -/
structure FileArg where
  name : String
  size : Nat
  processed : Nat
deriving DecidableEq

/-- struct mgos_upd_ctx. -/
structure UpdCtx where
  fw_part : PartInfo
  fs_part : PartInfo
  fs_dir_part : PartInfo
  slot_to_write : Nat
  current_part : Option PartTag
  current_write_address : Nat
  erased_till : Nat
  status_msg : Option String
deriving DecidableEq

/-- The zero-initialized context produced by mgos_upd_ctx_create (calloc). -/
def UpdCtx.init : UpdCtx :=
  { fw_part := PartInfo.init, fs_part := PartInfo.init, fs_dir_part := PartInfo.init,
    slot_to_write := 0, current_part := none, current_write_address := 0,
    erased_till := 0, status_msg := none }

/-- Read the part_info slot named by a tag. -/
def getPart (ctx : UpdCtx) : PartTag → PartInfo
  | PartTag.fw => ctx.fw_part
  | PartTag.fs => ctx.fs_part
  | PartTag.fsDir => ctx.fs_dir_part

/-- Replace the part_info slot named by a tag. -/
def setPart (ctx : UpdCtx) (t : PartTag) (p : PartInfo) : UpdCtx :=
  match t with
  | PartTag.fw => { ctx with fw_part := p }
  | PartTag.fs => { ctx with fs_part := p }
  | PartTag.fsDir => { ctx with fs_dir_part := p }

/-- The fields of rboot_config that esp_updater.c reads or writes.  The
per-rom arrays are modelled as functions from the rom index. -/
structure RbootConfig where
  current_rom : Nat
  previous_rom : Nat
  roms : Nat → Nat
  roms_sizes : Nat → Nat
  fs_addresses : Nat → Nat
  fs_sizes : Nat → Nat
  is_first_boot : Bool
  fw_updated : Bool
  user_flags : Nat
  boot_attempts : Nat

/-- An all-zero rboot configuration, used as a base point for witnesses. -/
def cfgZero : RbootConfig :=
  { current_rom := 0, previous_rom := 0, roms := fun _ => 0, roms_sizes := fun _ => 0,
    fs_addresses := fun _ => 0, fs_sizes := fun _ => 0, is_first_boot := false,
    fw_updated := false, user_flags := 0, boot_attempts := 0 }

/-- One pre-parsed manifest part token, as json_scanf delivers it to
fill_file_part_info: addr and size are numeric tokens that are simply left
absent when missing (modelled with Option), cs_sha1 and src are string tokens
whose absence json_scanf leaves as a zero-length token (modelled as ""). -/
structure PartToken where
  addr : Option Nat
  cs_sha1 : String
  src : String
  size : Option Int

/-- The fw, fs and fs_dir tokens extracted from the manifest by
mgos_upd_begin.  An absent token has addr and size none and empty strings. -/
structure ManifestParts where
  fw : PartToken
  fs : PartToken
  fs_dir : PartToken

/-- enum mgos_upd_file_action. -/
inductive UpdFileAction where
  | PROCESS
  | SKIP
  | ABORT
deriving DecidableEq

/-- fill_file_part_info.  Returns the C result (1 or -1) together with the
updated part_info.  Mirrors the source order: pi.size and pi.addr are
assigned before the cs_sha1 and src tokens are validated, so a failing call
still leaves them updated.  The uninitialized local addr that the C code
uses when the addr token is absent is modelled as 0 (such a token always
fails validation of cs_sha1/src in any well-formed manifest part anyway). -/
def fill_file_part_info (slot : Nat) (tok : PartToken) (pi : PartInfo) : Int × PartInfo :=
  let pi1 := match tok.size with
    | some n => { pi with size := n }
    | none => pi
  let pi2 := { pi1 with addr := (tok.addr.getD 0 + slot * FW_SLOT_SIZE) % U32 }
  if tok.cs_sha1.length = 0 then (-1, pi2)
  else
    let pi3 := { pi2 with sha1_sum := tok.cs_sha1 }
    if tok.src.length = 0 ∨ 50 ≤ tok.src.length then (-1, pi3)
    else (1, { pi3 with file_name := tok.src })

/-- mgos_upd_begin.  The rboot configuration is passed in (the C code obtains
it from get_rboot_config; the out-of-memory failure of that accessor is not
modelled).  Returns the C result and the updated context. -/
def mgos_upd_begin (cfg : RbootConfig) (m : ManifestParts) (ctx : UpdCtx) : Int × UpdCtx :=
  let slot := if cfg.current_rom = 0 then 1 else 0
  let ctx1 := { ctx with slot_to_write := slot }
  let f1 := fill_file_part_info slot m.fw ctx1.fw_part
  let ctx2 := { ctx1 with fw_part := f1.2 }
  if f1.1 < 0 then (-1, { ctx2 with status_msg := some "Firmware part is missing" })
  else
    let f2 := fill_file_part_info slot m.fs ctx2.fs_part
    let ctx3 := { ctx2 with fs_part := f2.2 }
    if f2.1 < 0 then (-1, { ctx3 with status_msg := some "FS part is missing" })
    else (1, ctx3)

/-- A checksum-verifier oracle: given the flash address, the length and the
expected hex digest, reports whether verify_checksum returned 1 (the flash
content hashes to the expected digest).  verify_checksum itself streams
external flash through an external SHA1, so its outcome is a parameter. -/
def VerifyOracle : Type := Nat → Nat → String → Bool

/-- prepare_to_write.  Returns the C result (0 = skip, 1 = process) and the
updated context.  Flash is only read here (by verify_checksum), never erased
or written. -/
def prepare_to_write (ctx : UpdCtx) (fi : FileArg) (t : PartTag) (verify : VerifyOracle) :
    Int × UpdCtx :=
  let part := getPart ctx t
  if part.done = true then (0, ctx)
  else
    let part1 := { part with fi_size := fi.size }
    let ctx1 := { setPart ctx t part1 with
                  current_part := some t,
                  current_write_address := part.addr,
                  erased_till := part.addr }
    if verify part.addr fi.size part.sha1_sum = true then
      (0, setPart ctx1 t { part1 with done := true })
    else (1, ctx1)

/-- Result of mgos_upd_file_begin: the action, the updated context, and the
flash write and erase calls performed (none: the begin path only reads
flash). -/
structure BeginRes where
  action : UpdFileAction
  ctx : UpdCtx
  writes : List (Nat × List Nat)
  erases : List (Nat × Nat)
deriving DecidableEq

/-- mgos_upd_file_begin.  Matches the incoming file name against the fw and
fs parts; everything else is skipped. -/
def mgos_upd_file_begin (ctx : UpdCtx) (fi : FileArg) (verify : VerifyOracle) : BeginRes :=
  let ctx0 := { ctx with status_msg := some "Failed to update file" }
  if fi.name = ctx0.fw_part.file_name then
    let r := prepare_to_write ctx0 fi PartTag.fw verify
    if r.1 < 0 then ⟨UpdFileAction.ABORT, r.2, [], []⟩
    else if r.1 = 0 then ⟨UpdFileAction.SKIP, r.2, [], []⟩
    else ⟨UpdFileAction.PROCESS, r.2, [], []⟩
  else if fi.name = ctx0.fs_part.file_name then
    let r := prepare_to_write ctx0 fi PartTag.fs verify
    if r.1 < 0 then ⟨UpdFileAction.ABORT, r.2, [], []⟩
    else if r.1 = 0 then ⟨UpdFileAction.SKIP, r.2, [], []⟩
    else ⟨UpdFileAction.PROCESS, r.2, [], []⟩
  else ⟨UpdFileAction.SKIP, ctx0, [], []⟩

/-- The loop body of prepare_flash, with an explicit iteration budget.  The
budget passed by prepare_flash is exact: erased_till grows by at least one
per iteration, so a budget of cwa + bytes - erased_till can never run out
while the loop guard still holds, and the embedding computes precisely what
the C while loop computes (on wrap-free inputs).  Returns the final
erased_till and the list of erases as (start, length) events. -/
def prepare_flash_go : Nat → Nat → Nat → Nat → Nat → Nat × List (Nat × Nat)
  | 0, _, _, _, et => (et, [])
  | gas + 1, pe, cwa, b, et =>
    if et < cwa + b then
      if et % FLASH_ERASE_BLOCK_SIZE = 0 ∧ et + FLASH_ERASE_BLOCK_SIZE ≤ pe then
        let block_no := et / FLASH_ERASE_BLOCK_SIZE
        let r := prepare_flash_go gas pe cwa b ((block_no + 1) * FLASH_ERASE_BLOCK_SIZE)
        (r.1, (block_no * FLASH_ERASE_BLOCK_SIZE, FLASH_ERASE_BLOCK_SIZE) :: r.2)
      else
        let sec_no := et / FLASH_SECTOR_SIZE
        let r := prepare_flash_go gas pe cwa b ((sec_no + 1) * FLASH_SECTOR_SIZE)
        (r.1, (sec_no * FLASH_SECTOR_SIZE, FLASH_SECTOR_SIZE) :: r.2)
    else (et, [])

/-- prepare_flash.  pe is the end of the current part
(current_part.addr + current_part.fi.size), cwa the current write address,
b the byte count about to be written, et the current erased_till.  Erase
failures of the flash driver are not modelled (erases always succeed). -/
def prepare_flash (pe cwa b et : Nat) : Nat × List (Nat × Nat) :=
  prepare_flash_go (cwa + b - et) pe cwa b et

/-- Result of mgos_upd_file_data: the returned byte count, the updated
context, and the flash write and erase calls performed. -/
structure DataRes where
  ret : Int
  ctx : UpdCtx
  writes : List (Nat × List Nat)
  erases : List (Nat × Nat)
deriving DecidableEq

/-- mgos_upd_file_data.  data is the chunk content as bytes.  The uint32
subtractions of the C code (fi->size - fi->processed and the computation of
rest) wrap and are modelled with usub32.  Flash write failures are not
modelled (writes always succeed). -/
def mgos_upd_file_data (ctx : UpdCtx) (fi : FileArg) (data : List Nat) : DataRes :=
  if data.length < UPDATER_MIN_BLOCK_SIZE ∧
      UPDATER_MIN_BLOCK_SIZE < usub32 fi.size fi.processed then
    ⟨0, ctx, [], []⟩
  else
    let pe := match ctx.current_part with
      | some t => (getPart ctx t).addr + (getPart ctx t).fi_size
      | none => 0
    let pf := prepare_flash pe ctx.current_write_address data.length ctx.erased_till
    let alignedLen := data.length - data.length % 4
    let w1 : List (Nat × List Nat) :=
      if 0 < alignedLen then [(ctx.current_write_address, data.take alignedLen)] else []
    let cwa1 := ctx.current_write_address + alignedLen
    let rem := data.drop alignedLen
    let rest := usub32 (usub32 fi.size fi.processed) alignedLen
    if 0 < rest ∧ rest < 4 ∧ 4 ≤ rem.length then
      let padWord := rem.take rest ++ List.replicate (4 - rest) 255
      ⟨Int.ofNat (alignedLen + rest),
       { ctx with erased_till := pf.1, current_write_address := cwa1 },
       w1 ++ [(cwa1, padWord)], pf.2⟩
    else
      ⟨Int.ofNat alignedLen,
       { ctx with erased_till := pf.1, current_write_address := cwa1 },
       w1, pf.2⟩

/-- Total number of bytes passed to flash write calls in a data result. -/
def writtenBytes (r : DataRes) : Nat := (r.writes.map fun w => w.2.length).sum

/-- mgos_upd_file_end.  The C code asserts tail.len == 0 and returns
tail.len on success; verify is invoked on the current part region with the
declared file size.  A null current_part (no preceding begin) would be a
crash in C and is modelled as a no-op. -/
def mgos_upd_file_end (ctx : UpdCtx) (fi : FileArg) (tailLen : Nat) (verify : VerifyOracle) :
    Int × UpdCtx :=
  match ctx.current_part with
  | none => (Int.ofNat tailLen, ctx)
  | some t =>
    if verify (getPart ctx t).addr fi.size (getPart ctx t).sha1_sum = true then
      (Int.ofNat tailLen, setPart ctx t { getPart ctx t with done := true })
    else (-1, { ctx with status_msg := some "Invalid checksum" })

/-- mgos_upd_finalize over an explicit configuration.  Returns the C result,
the final configuration, and the list of rboot_set_config persistence calls
made (the function body of the C code never performs more than one). -/
def mgos_upd_finalize (ctx : UpdCtx) (cfg : RbootConfig) :
    Int × RbootConfig × List RbootConfig :=
  if ctx.fw_part.done = false then (-1, cfg, [])
  else if ctx.fs_part.done = false ∧ ctx.fs_dir_part.done = false then (-2, cfg, [])
  else if ctx.slot_to_write = cfg.current_rom then
    let cfg' := { cfg with user_flags := 1 }
    (1, cfg', [cfg'])
  else
    let s := ctx.slot_to_write
    let cfg' := { cfg with
      previous_rom := cfg.current_rom,
      current_rom := s,
      fs_addresses := upd cfg.fs_addresses s ctx.fs_part.addr,
      fs_sizes := upd cfg.fs_sizes s ctx.fs_part.fi_size,
      roms := upd cfg.roms s ctx.fw_part.addr,
      roms_sizes := upd cfg.roms_sizes s ctx.fw_part.fi_size,
      is_first_boot := true,
      fw_updated := true,
      user_flags := 1,
      boot_attempts := 0 }
    (1, cfg', [cfg'])

/-- mgos_upd_boot_commit over an explicit configuration: the final
configuration and the persistence calls made. -/
def mgos_upd_boot_commit (cfg : RbootConfig) : RbootConfig × List RbootConfig :=
  if cfg.fw_updated = false then (cfg, [])
  else
    let cfg' := { cfg with fw_updated := false, is_first_boot := false }
    (cfg', [cfg'])

/-- mgos_upd_boot_revert over an explicit configuration: the final
configuration and the persistence calls made. -/
def mgos_upd_boot_revert (cfg : RbootConfig) : RbootConfig × List RbootConfig :=
  if cfg.fw_updated = false then (cfg, [])
  else
    let cfg' := { cfg with current_rom := cfg.previous_rom,
                           fw_updated := false, is_first_boot := false }
    (cfg', [cfg'])

/-- The process-wide boot-configuration state: the persistent store, the
lazily-initialized malloc-backed cache of get_rboot_config, and a counter of
rboot_get_config reads from the persistent store. -/
structure BootSys where
  store : RbootConfig
  cache : Option RbootConfig
  reads : Nat

/-- get_rboot_config: returns the cached snapshot, reading the persistent
store only on the first call of the process lifetime. -/
def get_rboot_config_sys (s : BootSys) : RbootConfig × BootSys :=
  match s.cache with
  | some c => (c, s)
  | none => (s.store, { s with cache := some s.store, reads := s.reads + 1 })

/-- rboot_set_config: persists the (in-place mutated) cached configuration. -/
def rboot_set_config_sys (c : RbootConfig) (s : BootSys) : BootSys :=
  { s with store := c, cache := some c }

/-- mgos_upd_boot_commit acting on the process-wide state. -/
def mgos_upd_boot_commit_sys (s : BootSys) : BootSys :=
  let p := get_rboot_config_sys s
  if p.1.fw_updated = false then p.2
  else
    let r := mgos_upd_boot_commit p.1
    rboot_set_config_sys r.1 p.2

/-- mgos_upd_boot_revert acting on the process-wide state. -/
def mgos_upd_boot_revert_sys (s : BootSys) : BootSys :=
  let p := get_rboot_config_sys s
  if p.1.fw_updated = false then p.2
  else
    let r := mgos_upd_boot_revert p.1
    rboot_set_config_sys r.1 p.2

/-- mgos_upd_finalize acting on the process-wide state.  The part-completion
checks happen before the configuration is even read, exactly as in the C
code. -/
def mgos_upd_finalize_sys (ctx : UpdCtx) (s : BootSys) : Int × BootSys :=
  if ctx.fw_part.done = false then (-1, s)
  else if ctx.fs_part.done = false ∧ ctx.fs_dir_part.done = false then (-2, s)
  else
    let p := get_rboot_config_sys s
    let r := mgos_upd_finalize ctx p.1
    (r.1, rboot_set_config_sys r.2.1 p.2)

/-- mgos_upd_file_end together with the process-wide boot state, which its C
body never touches. -/
def mgos_upd_file_end_sys (s : BootSys) (ctx : UpdCtx) (fi : FileArg) (tailLen : Nat)
    (verify : VerifyOracle) : Int × UpdCtx × BootSys :=
  let r := mgos_upd_file_end ctx fi tailLen verify
  (r.1, r.2, s)

/-- One invocation of a public operation of a single update attempt, with
the data the external collaborators supply to it. -/
inductive UpdOp where
  | updBegin (cfg : RbootConfig) (m : ManifestParts)
  | fileBegin (fi : FileArg) (verify : VerifyOracle)
  | fileData (fi : FileArg) (data : List Nat)
  | fileEnd (fi : FileArg) (tailLen : Nat) (verify : VerifyOracle)

/-- Effect of one public operation on the update context. -/
def UpdOp.step (ctx : UpdCtx) : UpdOp → UpdCtx
  | UpdOp.updBegin cfg m => (mgos_upd_begin cfg m ctx).2
  | UpdOp.fileBegin fi v => (mgos_upd_file_begin ctx fi v).ctx
  | UpdOp.fileData fi d => (mgos_upd_file_data ctx fi d).ctx
  | UpdOp.fileEnd fi tl v => (mgos_upd_file_end ctx fi tl v).2

/-- The context reached from a fresh mgos_upd_ctx_create context by a
sequence of public operations. -/
def reach (ops : List UpdOp) : UpdCtx := ops.foldl UpdOp.step UpdCtx.init

/-- Formalization of the literal erase-minimality clause of the spec: every
byte offset erased by the given events lies strictly below the given
erased_till value. -/
def erasesOnlyBelow (et : Nat) (evs : List (Nat × Nat)) : Bool :=
  evs.all fun ev => ev.1 + ev.2 ≤ et

/-- A concrete well-formed manifest with firmware and filesystem parts, used
as input by witnesses. -/
def manifestEx : ManifestParts :=
  ⟨⟨some 0, "cs", "fw.bin", some 1000⟩, ⟨some 8192, "cs", "fs.bin", some 500⟩,
   ⟨none, "", "", none⟩⟩

/-- C1 (Finalize correctness): mgos_upd_finalize fails with the configuration
unchanged and nothing persisted if the firmware part is not done; it fails
likewise if neither the filesystem part nor the filesystem-directory part is
done; and when the required parts are done and slot_to_write differs from the
current slot it succeeds, setting previous_rom to the old current_rom,
current_rom to slot_to_write, copying the new slot firmware and filesystem
address and size from the written part descriptors, setting is_first_boot,
fw_updated and user_flags, resetting boot_attempts to 0, and persisting the
configuration as a single rboot_set_config call. -/
theorem finalize_correct (ctx : UpdCtx) (cfg : RbootConfig) :
    (ctx.fw_part.done = false → mgos_upd_finalize ctx cfg = (-1, cfg, [])) ∧
    (ctx.fw_part.done = true → ctx.fs_part.done = false → ctx.fs_dir_part.done = false →
      mgos_upd_finalize ctx cfg = (-2, cfg, [])) ∧
    (ctx.fw_part.done = true → (ctx.fs_part.done = true ∨ ctx.fs_dir_part.done = true) →
      ctx.slot_to_write ≠ cfg.current_rom →
      (mgos_upd_finalize ctx cfg).1 = 1 ∧
      (mgos_upd_finalize ctx cfg).2.1.previous_rom = cfg.current_rom ∧
      (mgos_upd_finalize ctx cfg).2.1.current_rom = ctx.slot_to_write ∧
      (mgos_upd_finalize ctx cfg).2.1.roms ctx.slot_to_write = ctx.fw_part.addr ∧
      (mgos_upd_finalize ctx cfg).2.1.roms_sizes ctx.slot_to_write = ctx.fw_part.fi_size ∧
      (mgos_upd_finalize ctx cfg).2.1.fs_addresses ctx.slot_to_write = ctx.fs_part.addr ∧
      (mgos_upd_finalize ctx cfg).2.1.fs_sizes ctx.slot_to_write = ctx.fs_part.fi_size ∧
      (mgos_upd_finalize ctx cfg).2.1.is_first_boot = true ∧
      (mgos_upd_finalize ctx cfg).2.1.fw_updated = true ∧
      (mgos_upd_finalize ctx cfg).2.1.user_flags = 1 ∧
      (mgos_upd_finalize ctx cfg).2.1.boot_attempts = 0 ∧
      (mgos_upd_finalize ctx cfg).2.2 = [(mgos_upd_finalize ctx cfg).2.1]) := by
  refine ⟨?_, ?_, ?_⟩
  · intro h
    simp [mgos_upd_finalize, h]
  · intro h1 h2 h3
    simp [mgos_upd_finalize, h1, h2, h3]
  · intro h1 h2 h3
    have hfs : ¬ (ctx.fs_part.done = false ∧ ctx.fs_dir_part.done = false) := by
      rcases h2 with h | h <;> simp [h]
    simp [mgos_upd_finalize, h1, hfs, h3, upd]

/-- Witness for finalize_correct: concrete failing and succeeding inputs. -/
theorem finalize_correct_witness :
    mgos_upd_finalize UpdCtx.init cfgZero = (-1, cfgZero, []) ∧
    mgos_upd_finalize { UpdCtx.init with fw_part := { PartInfo.init with done := true } }
      cfgZero = (-2, cfgZero, []) ∧
    (mgos_upd_finalize { UpdCtx.init with
        fw_part := { PartInfo.init with done := true, addr := 1048576, fi_size := 1000 },
        fs_part := { PartInfo.init with done := true, addr := 1056768, fi_size := 500 },
        slot_to_write := 1 } cfgZero).1 = 1 ∧
    (mgos_upd_finalize { UpdCtx.init with
        fw_part := { PartInfo.init with done := true, addr := 1048576, fi_size := 1000 },
        fs_part := { PartInfo.init with done := true, addr := 1056768, fi_size := 500 },
        slot_to_write := 1 } cfgZero).2.1.current_rom = 1 := by
  refine ⟨(finalize_correct UpdCtx.init cfgZero).1 rfl,
          (finalize_correct _ cfgZero).2.1 rfl rfl rfl,
          ((finalize_correct _ cfgZero).2.2 rfl (Or.inl rfl) (by decide)).1,
          ?_⟩
  have h := ((finalize_correct { UpdCtx.init with
        fw_part := { PartInfo.init with done := true, addr := 1048576, fi_size := 1000 },
        fs_part := { PartInfo.init with done := true, addr := 1056768, fi_size := 500 },
        slot_to_write := 1 } cfgZero).2.2 rfl (Or.inl rfl) (by decide)).2.2.1
  exact h

/-- C2 (Commit and revert): when fw_updated is false both operations leave
the configuration unchanged and persist nothing; when it is true, commit
clears fw_updated and is_first_boot leaving current_rom unchanged, revert
additionally sets current_rom back to previous_rom, and each persists its
result exactly once; composed with a slot-switching finalize, revert
restores the pre-finalize current_rom. -/
theorem commit_revert_correct (ctx : UpdCtx) (cfg : RbootConfig) :
    (cfg.fw_updated = false →
      mgos_upd_boot_commit cfg = (cfg, []) ∧ mgos_upd_boot_revert cfg = (cfg, [])) ∧
    (cfg.fw_updated = true →
      (mgos_upd_boot_commit cfg).1 =
        { cfg with fw_updated := false, is_first_boot := false } ∧
      (mgos_upd_boot_commit cfg).2 = [(mgos_upd_boot_commit cfg).1] ∧
      (mgos_upd_boot_commit cfg).1.current_rom = cfg.current_rom ∧
      (mgos_upd_boot_revert cfg).1 =
        { cfg with current_rom := cfg.previous_rom,
                   fw_updated := false, is_first_boot := false } ∧
      (mgos_upd_boot_revert cfg).2 = [(mgos_upd_boot_revert cfg).1]) ∧
    (ctx.fw_part.done = true → (ctx.fs_part.done = true ∨ ctx.fs_dir_part.done = true) →
      ctx.slot_to_write ≠ cfg.current_rom →
      (mgos_upd_boot_revert (mgos_upd_finalize ctx cfg).2.1).1.current_rom =
        cfg.current_rom) := by
  refine ⟨?_, ?_, ?_⟩
  · intro h
    simp [mgos_upd_boot_commit, mgos_upd_boot_revert, h]
  · intro h
    simp [mgos_upd_boot_commit, mgos_upd_boot_revert, h]
  · intro h1 h2 h3
    have hfs : ¬ (ctx.fs_part.done = false ∧ ctx.fs_dir_part.done = false) := by
      rcases h2 with h | h <;> simp [h]
    simp [mgos_upd_finalize, mgos_upd_boot_revert, h1, hfs, h3]

/-- Witness for commit_revert_correct at concrete configurations. -/
theorem commit_revert_correct_witness :
    mgos_upd_boot_commit cfgZero = (cfgZero, []) ∧
    (mgos_upd_boot_revert { cfgZero with
        fw_updated := true, current_rom := 1, previous_rom := 0 }).1.current_rom = 0 ∧
    (mgos_upd_boot_revert (mgos_upd_finalize { UpdCtx.init with
        fw_part := { PartInfo.init with done := true },
        fs_part := { PartInfo.init with done := true },
        slot_to_write := 1 } cfgZero).2.1).1.current_rom = 0 := by
  refine ⟨((commit_revert_correct UpdCtx.init cfgZero).1 rfl).1, ?_, ?_⟩
  · have h := ((commit_revert_correct UpdCtx.init { cfgZero with
        fw_updated := true, current_rom := 1, previous_rom := 0 }).2.1 rfl).2.2.2.1
    rw [h]
  · exact (commit_revert_correct { UpdCtx.init with
        fw_part := { PartInfo.init with done := true },
        fs_part := { PartInfo.init with done := true },
        slot_to_write := 1 } cfgZero).2.2 rfl (Or.inl rfl) (by decide)

/-- uint32 subtraction of a value from itself is zero. -/
theorem usub32_self (a : Nat) : usub32 a a = 0 := by
  simp [usub32, Nat.add_sub_cancel_left]

/-- C6 (Minimum-block deferral): a chunk smaller than 2048 bytes is refused
(0 consumed, context untouched, no erase or write) while strictly more than
2048 bytes of the file remain; a chunk that is exactly the final remainder
of the file (of word-aligned length) is consumed in full immediately. -/
theorem file_data_min_block_deferral (ctx : UpdCtx) (fi : FileArg) (d : List Nat)
    (t : PartTag) :
    (d.length < UPDATER_MIN_BLOCK_SIZE →
      UPDATER_MIN_BLOCK_SIZE < usub32 fi.size fi.processed →
      mgos_upd_file_data ctx fi d = ⟨0, ctx, [], []⟩) ∧
    (ctx.current_part = some t →
      usub32 fi.size fi.processed ≤ UPDATER_MIN_BLOCK_SIZE →
      d.length = usub32 fi.size fi.processed → d.length % 4 = 0 →
      (mgos_upd_file_data ctx fi d).ret = Int.ofNat d.length) := by
  constructor
  · intro h1 h2
    simp [mgos_upd_file_data, h1, h2]
  · intro hc hrem hlen h4
    have hg : ¬ (d.length < UPDATER_MIN_BLOCK_SIZE ∧
        UPDATER_MIN_BLOCK_SIZE < usub32 fi.size fi.processed) := by
      rintro ⟨-, h2⟩
      omega
    have halign : d.length - d.length % 4 = d.length := by omega
    have hrest : usub32 (usub32 fi.size fi.processed) (d.length - d.length % 4) = 0 := by
      rw [halign, hlen]
      exact usub32_self _
    simp [mgos_upd_file_data, hg, hrest, halign]

/-- Witness for file_data_min_block_deferral: a 100-byte chunk with 50100
bytes of file remaining is deferred; a 100-byte chunk that is the whole
remainder is consumed at once. -/
theorem file_data_min_block_deferral_witness :
    mgos_upd_file_data UpdCtx.init ⟨"fw.bin", 50100, 0⟩ (List.replicate 100 7) =
      ⟨0, UpdCtx.init, [], []⟩ ∧
    (mgos_upd_file_data { UpdCtx.init with current_part := some PartTag.fw }
      ⟨"fw.bin", 100, 0⟩ (List.replicate 100 7)).ret = Int.ofNat 100 := by
  constructor
  · exact (file_data_min_block_deferral UpdCtx.init ⟨"fw.bin", 50100, 0⟩
      (List.replicate 100 7) PartTag.fw).1 (by decide) (by decide)
  · have h := (file_data_min_block_deferral
      { UpdCtx.init with current_part := some PartTag.fw }
      ⟨"fw.bin", 100, 0⟩ (List.replicate 100 7) PartTag.fw).2 rfl (by decide) (by decide)
      (by decide)
    simpa using h

/-- C3 (code bug): the padded-tail write of mgos_upd_file_data is dead code.
After the 4-byte-aligned part of the chunk is consumed, at most 3 bytes of
the chunk remain, so the guard requiring at least 4 remaining chunk bytes is
never satisfiable and the 0xFF-padded tail word is never written: the bytes
passed to flash write calls never exceed the aligned part of the chunk.
Concretely, streaming a 6-byte file as one 6-byte chunk writes only 4 bytes,
returns 4, and resubmitting the final 2 bytes consumes 0 bytes and writes
nothing, forever short of the 8 bytes the spec requires. -/
theorem file_data_tail_never_padded :
    (∀ (ctx : UpdCtx) (fi : FileArg) (d : List Nat),
      writtenBytes (mgos_upd_file_data ctx fi d) ≤ d.length - d.length % 4) ∧
    ((mgos_upd_file_data { UpdCtx.init with
        fw_part := { PartInfo.init with size := 6, file_name := "fw.bin", fi_size := 6 },
        current_part := some PartTag.fw }
      ⟨"fw.bin", 6, 0⟩ [1, 2, 3, 4, 5, 6]).ret = 4 ∧
     writtenBytes (mgos_upd_file_data { UpdCtx.init with
        fw_part := { PartInfo.init with size := 6, file_name := "fw.bin", fi_size := 6 },
        current_part := some PartTag.fw }
      ⟨"fw.bin", 6, 0⟩ [1, 2, 3, 4, 5, 6]) = 4 ∧
     (mgos_upd_file_data (mgos_upd_file_data { UpdCtx.init with
        fw_part := { PartInfo.init with size := 6, file_name := "fw.bin", fi_size := 6 },
        current_part := some PartTag.fw }
      ⟨"fw.bin", 6, 0⟩ [1, 2, 3, 4, 5, 6]).ctx ⟨"fw.bin", 6, 4⟩ [5, 6]).ret = 0 ∧
     writtenBytes (mgos_upd_file_data (mgos_upd_file_data { UpdCtx.init with
        fw_part := { PartInfo.init with size := 6, file_name := "fw.bin", fi_size := 6 },
        current_part := some PartTag.fw }
      ⟨"fw.bin", 6, 0⟩ [1, 2, 3, 4, 5, 6]).ctx ⟨"fw.bin", 6, 4⟩ [5, 6]) = 0 ∧
     (4 : Nat) + 0 ≠ 8) := by
  constructor
  · intro ctx fi d
    by_cases hg : d.length < UPDATER_MIN_BLOCK_SIZE ∧
        UPDATER_MIN_BLOCK_SIZE < usub32 fi.size fi.processed
    · simp [mgos_upd_file_data, hg, writtenBytes]
    · have hlen4 : (d.drop (d.length - d.length % 4)).length = d.length % 4 := by
        rw [List.length_drop]
        omega
      have hcond : ¬ (0 < usub32 (usub32 fi.size fi.processed) (d.length - d.length % 4) ∧
          usub32 (usub32 fi.size fi.processed) (d.length - d.length % 4) < 4 ∧
          4 ≤ (d.drop (d.length - d.length % 4)).length) := by
        rintro ⟨-, -, h⟩
        rw [hlen4] at h
        omega
      simp only [mgos_upd_file_data, if_neg hg, if_neg hcond, writtenBytes]
      by_cases ha : 0 < d.length - d.length % 4
      · simp [ha, List.length_take]
      · simp [ha]
  · exact ⟨by decide, by decide, by decide, by decide, by decide⟩

/-- Loop invariants of the prepare_flash erase loop, proved for any
iteration budget: erased_till never decreases, every erase starts at or
above the incoming erased_till (when it is sector-aligned) and ends at or
below the final erased_till, a block erase happens only with block-aligned
erased_till and a part reaching at least a full block further, and the final
erased_till is the end of the last erase (or unchanged when nothing was
erased). -/
theorem prepare_flash_go_props :
    ∀ (gas pe cwa b et : Nat), et % FLASH_SECTOR_SIZE = 0 →
      et ≤ (prepare_flash_go gas pe cwa b et).1 ∧
      (∀ ev ∈ (prepare_flash_go gas pe cwa b et).2,
        et ≤ ev.1 ∧ ev.1 + ev.2 ≤ (prepare_flash_go gas pe cwa b et).1) ∧
      (∀ ev ∈ (prepare_flash_go gas pe cwa b et).2,
        (ev.2 = FLASH_ERASE_BLOCK_SIZE ∧ ev.1 % FLASH_ERASE_BLOCK_SIZE = 0 ∧
          ev.1 + FLASH_ERASE_BLOCK_SIZE ≤ pe) ∨ ev.2 = FLASH_SECTOR_SIZE) ∧
      ((prepare_flash_go gas pe cwa b et).1 = et ∨
        ∃ ev ∈ (prepare_flash_go gas pe cwa b et).2,
          (prepare_flash_go gas pe cwa b et).1 = ev.1 + ev.2) := by
  intro gas
  induction gas with
  | zero =>
    intro pe cwa b et _
    simp [prepare_flash_go]
  | succ g ih =>
    intro pe cwa b et halign
    by_cases hg : et < cwa + b
    · by_cases hbc : et % FLASH_ERASE_BLOCK_SIZE = 0 ∧ et + FLASH_ERASE_BLOCK_SIZE ≤ pe
      · have hdm : et / FLASH_ERASE_BLOCK_SIZE * FLASH_ERASE_BLOCK_SIZE = et :=
          Nat.div_mul_cancel (Nat.dvd_of_mod_eq_zero hbc.1)
        have het2 : (et / FLASH_ERASE_BLOCK_SIZE + 1) * FLASH_ERASE_BLOCK_SIZE =
            et + FLASH_ERASE_BLOCK_SIZE := by
          rw [Nat.add_mul, one_mul, hdm]
        have halign2 : (et + FLASH_ERASE_BLOCK_SIZE) % FLASH_SECTOR_SIZE = 0 := by
          have h1 : FLASH_SECTOR_SIZE = 4096 := rfl
          have h2 : FLASH_ERASE_BLOCK_SIZE = 65536 := rfl
          rw [h1] at halign ⊢
          rw [h2]
          omega
        obtain ⟨ih1, ih2, ih3, ih4⟩ := ih pe cwa b (et + FLASH_ERASE_BLOCK_SIZE) halign2
        simp only [prepare_flash_go, if_pos hg, if_pos hbc, het2]
        refine ⟨?_, ?_, ?_, ?_⟩
        · exact le_trans (Nat.le_add_right _ _) ih1
        · intro ev hev
          rcases List.mem_cons.mp hev with h | h
          · subst h
            rw [hdm]
            exact ⟨le_refl _, ih1⟩
          · obtain ⟨ha, hb⟩ := ih2 ev h
            exact ⟨le_trans (Nat.le_add_right _ _) ha, hb⟩
        · intro ev hev
          rcases List.mem_cons.mp hev with h | h
          · subst h
            rw [hdm]
            exact Or.inl ⟨rfl, hbc.1, hbc.2⟩
          · exact ih3 ev h
        · rcases ih4 with h | ⟨ev, hev, h⟩
          · refine Or.inr ⟨(et / FLASH_ERASE_BLOCK_SIZE * FLASH_ERASE_BLOCK_SIZE,
              FLASH_ERASE_BLOCK_SIZE), List.mem_cons_self _ _, ?_⟩
            rw [hdm, h]
          · exact Or.inr ⟨ev, List.mem_cons_of_mem _ hev, h⟩
      · have hdm : et / FLASH_SECTOR_SIZE * FLASH_SECTOR_SIZE = et :=
          Nat.div_mul_cancel (Nat.dvd_of_mod_eq_zero halign)
        have het2 : (et / FLASH_SECTOR_SIZE + 1) * FLASH_SECTOR_SIZE =
            et + FLASH_SECTOR_SIZE := by
          rw [Nat.add_mul, one_mul, hdm]
        have halign2 : (et + FLASH_SECTOR_SIZE) % FLASH_SECTOR_SIZE = 0 := by
          have h1 : FLASH_SECTOR_SIZE = 4096 := rfl
          rw [h1] at halign ⊢
          omega
        obtain ⟨ih1, ih2, ih3, ih4⟩ := ih pe cwa b (et + FLASH_SECTOR_SIZE) halign2
        simp only [prepare_flash_go, if_pos hg, if_neg hbc, het2]
        refine ⟨?_, ?_, ?_, ?_⟩
        · exact le_trans (Nat.le_add_right _ _) ih1
        · intro ev hev
          rcases List.mem_cons.mp hev with h | h
          · subst h
            rw [hdm]
            exact ⟨le_refl _, ih1⟩
          · obtain ⟨ha, hb⟩ := ih2 ev h
            exact ⟨le_trans (Nat.le_add_right _ _) ha, hb⟩
        · intro ev hev
          rcases List.mem_cons.mp hev with h | h
          · subst h
            exact Or.inr rfl
          · exact ih3 ev h
        · rcases ih4 with h | ⟨ev, hev, h⟩
          · refine Or.inr ⟨(et / FLASH_SECTOR_SIZE * FLASH_SECTOR_SIZE,
              FLASH_SECTOR_SIZE), List.mem_cons_self _ _, ?_⟩
            rw [hdm, h]
          · exact Or.inr ⟨ev, List.mem_cons_of_mem _ hev, h⟩
    · simp [prepare_flash_go, hg]

/-- C8 (amended): within one part, prepare_flash never erases flash below a
sector-aligned erased_till (erased_till is sector-aligned after every erase
and initially equals the part base address), erased_till is monotonically
non-decreasing and advances to the end of the erased region after each
erase, and a 64 KiB block erase is chosen only when erased_till is
block-aligned and the part extends at least one full block beyond it,
otherwise a single 4 KiB sector is erased. -/
theorem prepare_flash_erase_props (pe cwa b et : Nat)
    (halign : et % FLASH_SECTOR_SIZE = 0) :
    et ≤ (prepare_flash pe cwa b et).1 ∧
    (∀ ev ∈ (prepare_flash pe cwa b et).2,
      et ≤ ev.1 ∧ ev.1 + ev.2 ≤ (prepare_flash pe cwa b et).1) ∧
    (∀ ev ∈ (prepare_flash pe cwa b et).2,
      (ev.2 = FLASH_ERASE_BLOCK_SIZE ∧ ev.1 % FLASH_ERASE_BLOCK_SIZE = 0 ∧
        ev.1 + FLASH_ERASE_BLOCK_SIZE ≤ pe) ∨ ev.2 = FLASH_SECTOR_SIZE) ∧
    ((prepare_flash pe cwa b et).1 = et ∨
      ∃ ev ∈ (prepare_flash pe cwa b et).2,
        (prepare_flash pe cwa b et).1 = ev.1 + ev.2) :=
  prepare_flash_go_props (cwa + b - et) pe cwa b et halign

/-- Witness for prepare_flash_erase_props at a concrete erase run. -/
theorem prepare_flash_erase_props_witness :
    0 ≤ (prepare_flash 8 0 1 0).1 ∧
    (∀ ev ∈ (prepare_flash 8 0 1 0).2,
      0 ≤ ev.1 ∧ ev.1 + ev.2 ≤ (prepare_flash 8 0 1 0).1) ∧
    (∀ ev ∈ (prepare_flash 8 0 1 0).2,
      (ev.2 = FLASH_ERASE_BLOCK_SIZE ∧ ev.1 % FLASH_ERASE_BLOCK_SIZE = 0 ∧
        ev.1 + FLASH_ERASE_BLOCK_SIZE ≤ 8) ∨ ev.2 = FLASH_SECTOR_SIZE) ∧
    ((prepare_flash 8 0 1 0).1 = 0 ∨
      ∃ ev ∈ (prepare_flash 8 0 1 0).2,
        (prepare_flash 8 0 1 0).1 = ev.1 + ev.2) :=
  prepare_flash_erase_props 8 0 1 0 (by decide)

/-- C8 counterexample: read literally, the claim says prepare_flash never
erases flash whose offset is at or above erased_till; but every erase it
performs targets exactly such offsets.  With erased_till = 0 and one byte to
write, it erases the sector [0, 4096), all of whose offsets are ≥ 0. -/
theorem prepare_flash_erases_at_or_above_erased_till :
    (prepare_flash 8 0 1 0).2 = [(0, FLASH_SECTOR_SIZE)] ∧
    erasesOnlyBelow 0 (prepare_flash 8 0 1 0).2 = false := by
  constructor
  · decide
  · decide

/-- fill_file_part_info always converts the manifest-relative address to the
absolute slot address, on success and failure alike (the C code assigns
pi.addr before validating the other tokens). -/
theorem fill_file_part_info_addr (slot : Nat) (tok : PartToken) (pi : PartInfo) :
    (fill_file_part_info slot tok pi).2.addr =
      (tok.addr.getD 0 + slot * FW_SLOT_SIZE) % U32 := by
  rcases tok with ⟨a, s1, s2, sz⟩
  cases sz <;> simp only [fill_file_part_info] <;> split_ifs <;> rfl

/-- The result of a successful mgos_upd_begin, spelled out. -/
theorem mgos_upd_begin_parts (cfg : RbootConfig) (m : ManifestParts) (ctx : UpdCtx)
    (hsucc : (mgos_upd_begin cfg m ctx).1 = 1) :
    mgos_upd_begin cfg m ctx =
      (1, { ctx with
        slot_to_write := if cfg.current_rom = 0 then 1 else 0,
        fw_part :=
          (fill_file_part_info (if cfg.current_rom = 0 then 1 else 0) m.fw ctx.fw_part).2,
        fs_part :=
          (fill_file_part_info (if cfg.current_rom = 0 then 1 else 0) m.fs ctx.fs_part).2 }) := by
  unfold mgos_upd_begin at hsucc ⊢
  by_cases hf1 :
      (fill_file_part_info (if cfg.current_rom = 0 then 1 else 0) m.fw ctx.fw_part).1 < 0
  · simp [hf1] at hsucc
  · by_cases hf2 :
        (fill_file_part_info (if cfg.current_rom = 0 then 1 else 0) m.fs ctx.fs_part).1 < 0
    · simp [hf1, hf2] at hsucc
    · simp [hf1, hf2]

/-- C9 (Slot alternation): a successful mgos_upd_begin on a manifest with
firmware and filesystem parts sets slot_to_write to 1 minus the currently
running slot, and each filled part gets the absolute address
manifest-relative address + slot_to_write * FW_SLOT_SIZE. -/
theorem begin_slot_alternation (cfg : RbootConfig) (m : ManifestParts) (ctx : UpdCtx)
    (afw afs : Nat)
    (hcur : cfg.current_rom ≤ 1)
    (hfw : m.fw.addr = some afw) (hfs : m.fs.addr = some afs)
    (hbw : afw + FW_SLOT_SIZE < U32) (hbs : afs + FW_SLOT_SIZE < U32)
    (hsucc : (mgos_upd_begin cfg m ctx).1 = 1) :
    (mgos_upd_begin cfg m ctx).2.slot_to_write = 1 - cfg.current_rom ∧
    (mgos_upd_begin cfg m ctx).2.fw_part.addr =
      afw + (mgos_upd_begin cfg m ctx).2.slot_to_write * FW_SLOT_SIZE ∧
    (mgos_upd_begin cfg m ctx).2.fs_part.addr =
      afs + (mgos_upd_begin cfg m ctx).2.slot_to_write * FW_SLOT_SIZE := by
  have hres := mgos_upd_begin_parts cfg m ctx hsucc
  have h01 : cfg.current_rom = 0 ∨ cfg.current_rom = 1 := by omega
  simp only [FW_SLOT_SIZE, U32] at hbw hbs
  rcases h01 with h0 | h0 <;>
    rw [hres] <;>
    simp [h0, fill_file_part_info_addr, hfw, hfs, FW_SLOT_SIZE, U32] <;>
    omega

/-- Witness for begin_slot_alternation on a concrete manifest: running slot
0 gives slot_to_write 1 and absolute addresses offset by one slot. -/
theorem begin_slot_alternation_witness :
    (mgos_upd_begin cfgZero manifestEx UpdCtx.init).2.slot_to_write =
      1 - cfgZero.current_rom ∧
    (mgos_upd_begin cfgZero manifestEx UpdCtx.init).2.fw_part.addr =
      0 + (mgos_upd_begin cfgZero manifestEx UpdCtx.init).2.slot_to_write * FW_SLOT_SIZE ∧
    (mgos_upd_begin cfgZero manifestEx UpdCtx.init).2.fs_part.addr =
      8192 + (mgos_upd_begin cfgZero manifestEx UpdCtx.init).2.slot_to_write * FW_SLOT_SIZE :=
  begin_slot_alternation cfgZero manifestEx UpdCtx.init 0 8192 (by decide) rfl rfl
    (by decide) (by decide) (by decide)

/-- prepare_to_write leaves the fs_dir part untouched and either selects the
given (fw or fs) part as current or leaves current_part unchanged. -/
theorem prepare_to_write_fs_dir (ctx : UpdCtx) (fi : FileArg) (t : PartTag)
    (v : VerifyOracle) (ht : t ≠ PartTag.fsDir) :
    (prepare_to_write ctx fi t v).2.fs_dir_part = ctx.fs_dir_part ∧
    ((prepare_to_write ctx fi t v).2.current_part = some t ∨
      (prepare_to_write ctx fi t v).2.current_part = ctx.current_part) := by
  cases t with
  | fw =>
    simp only [prepare_to_write, getPart, setPart]
    split_ifs <;> simp
  | fs =>
    simp only [prepare_to_write, getPart, setPart]
    split_ifs <;> simp
  | fsDir => exact absurd rfl ht

/-- The context produced by mgos_upd_file_begin, by branch. -/
theorem file_begin_ctx (ctx : UpdCtx) (fi : FileArg) (v : VerifyOracle) :
    (mgos_upd_file_begin ctx fi v).ctx =
      (if fi.name = ctx.fw_part.file_name then
        (prepare_to_write { ctx with status_msg := some "Failed to update file" }
          fi PartTag.fw v).2
      else if fi.name = ctx.fs_part.file_name then
        (prepare_to_write { ctx with status_msg := some "Failed to update file" }
          fi PartTag.fs v).2
      else { ctx with status_msg := some "Failed to update file" }) := by
  simp only [mgos_upd_file_begin]
  split_ifs <;> rfl

/-- mgos_upd_file_begin leaves the fs_dir part untouched and never makes it
current. -/
theorem file_begin_fs_dir (ctx : UpdCtx) (fi : FileArg) (v : VerifyOracle) :
    (mgos_upd_file_begin ctx fi v).ctx.fs_dir_part = ctx.fs_dir_part ∧
    ((mgos_upd_file_begin ctx fi v).ctx.current_part = some PartTag.fw ∨
      (mgos_upd_file_begin ctx fi v).ctx.current_part = some PartTag.fs ∨
      (mgos_upd_file_begin ctx fi v).ctx.current_part = ctx.current_part) := by
  rw [file_begin_ctx]
  split_ifs with h1 h2
  · have hf := prepare_to_write_fs_dir { ctx with status_msg := some "Failed to update file" }
      fi PartTag.fw v (by decide)
    exact ⟨hf.1, by rcases hf.2 with h | h <;> rw [h] <;> simp⟩
  · have hf := prepare_to_write_fs_dir { ctx with status_msg := some "Failed to update file" }
      fi PartTag.fs v (by decide)
    exact ⟨hf.1, by rcases hf.2 with h | h <;> rw [h] <;> simp⟩
  · simp

/-- mgos_upd_file_data changes only the write cursor and erase high-water
mark of the context. -/
theorem file_data_fs_dir (ctx : UpdCtx) (fi : FileArg) (d : List Nat) :
    (mgos_upd_file_data ctx fi d).ctx.fs_dir_part = ctx.fs_dir_part ∧
    (mgos_upd_file_data ctx fi d).ctx.current_part = ctx.current_part := by
  simp only [mgos_upd_file_data]
  split_ifs <;> simp

/-- mgos_upd_file_end leaves the fs_dir part untouched and the current part
selection unchanged, provided the current part is not the fs_dir part. -/
theorem file_end_fs_dir (ctx : UpdCtx) (fi : FileArg) (tl : Nat) (v : VerifyOracle)
    (h2 : ctx.current_part ≠ some PartTag.fsDir) :
    (mgos_upd_file_end ctx fi tl v).2.fs_dir_part = ctx.fs_dir_part ∧
    (mgos_upd_file_end ctx fi tl v).2.current_part = ctx.current_part := by
  cases hc : ctx.current_part with
  | none => simp [mgos_upd_file_end, hc]
  | some t =>
    cases t with
    | fw =>
      simp only [mgos_upd_file_end, hc, getPart, setPart]
      split_ifs <;> simp
    | fs =>
      simp only [mgos_upd_file_end, hc, getPart, setPart]
      split_ifs <;> simp
    | fsDir => exact absurd hc h2

/-- mgos_upd_begin leaves the fs_dir part and the current part selection
untouched: the fs_dir manifest token is scanned but never used. -/
theorem upd_begin_fs_dir (cfg : RbootConfig) (m : ManifestParts) (ctx : UpdCtx) :
    (mgos_upd_begin cfg m ctx).2.fs_dir_part = ctx.fs_dir_part ∧
    (mgos_upd_begin cfg m ctx).2.current_part = ctx.current_part := by
  simp only [mgos_upd_begin]
  split_ifs <;> simp

/-- The fs_dir invariant is preserved by any sequence of public operations. -/
theorem foldl_step_inv (ops : List UpdOp) :
    ∀ ctx : UpdCtx, ctx.fs_dir_part.done = false →
      ctx.current_part ≠ some PartTag.fsDir →
      (ops.foldl UpdOp.step ctx).fs_dir_part.done = false ∧
      (ops.foldl UpdOp.step ctx).current_part ≠ some PartTag.fsDir := by
  induction ops with
  | nil =>
    intro ctx h1 h2
    exact ⟨h1, h2⟩
  | cons op rest ih =>
    intro ctx h1 h2
    have hstep : (UpdOp.step ctx op).fs_dir_part.done = false ∧
        (UpdOp.step ctx op).current_part ≠ some PartTag.fsDir := by
      cases op with
      | updBegin cfg m =>
        have hf := upd_begin_fs_dir cfg m ctx
        constructor
        · simp only [UpdOp.step]
          rw [hf.1]
          exact h1
        · simp only [UpdOp.step]
          rw [hf.2]
          exact h2
      | fileBegin fi v =>
        have hf := file_begin_fs_dir ctx fi v
        constructor
        · simp only [UpdOp.step]
          rw [hf.1]
          exact h1
        · simp only [UpdOp.step]
          rcases hf.2 with h | h | h <;> rw [h]
          · simp
          · simp
          · exact h2
      | fileData fi d =>
        have hf := file_data_fs_dir ctx fi d
        constructor
        · simp only [UpdOp.step]
          rw [hf.1]
          exact h1
        · simp only [UpdOp.step]
          rw [hf.2]
          exact h2
      | fileEnd fi tl v =>
        have hf := file_end_fs_dir ctx fi tl v h2
        constructor
        · simp only [UpdOp.step]
          rw [hf.1]
          exact h1
        · simp only [UpdOp.step]
          rw [hf.2]
          exact h2
    exact ih _ hstep.1 hstep.2

/-- C10 (implicit): in every state reachable through the public operations
of one update attempt the fs_dir part is never done — its manifest token is
scanned but its descriptor never populated and file begin only matches the
fw and fs parts — so finalize can succeed only when the filesystem part
itself is done. -/
theorem fs_dir_part_never_done (ops : List UpdOp) (cfg : RbootConfig) :
    (reach ops).fs_dir_part.done = false ∧
    ((mgos_upd_finalize (reach ops) cfg).1 = 1 → (reach ops).fs_part.done = true) := by
  have hinv := foldl_step_inv ops UpdCtx.init rfl (by decide)
  have hdir : (reach ops).fs_dir_part.done = false := hinv.1
  refine ⟨hdir, ?_⟩
  intro hfin
  by_cases hfw : (reach ops).fw_part.done = false
  · simp [mgos_upd_finalize, hfw] at hfin
  · by_cases hfs : (reach ops).fs_part.done = false
    · have hfw' : (reach ops).fw_part.done = true := by
        cases h : (reach ops).fw_part.done
        · exact absurd h hfw
        · rfl
      simp [mgos_upd_finalize, hfw', hfs, hdir] at hfin
    · cases h : (reach ops).fs_part.done
      · exact absurd h hfs
      · rfl

/-- Witness for fs_dir_part_never_done after a complete successful run. -/
theorem fs_dir_part_never_done_witness :
    (reach [UpdOp.updBegin cfgZero manifestEx,
            UpdOp.fileBegin ⟨"fw.bin", 4, 0⟩ (fun _ _ _ => true),
            UpdOp.fileBegin ⟨"fs.bin", 4, 0⟩ (fun _ _ _ => true)]).fs_dir_part.done = false ∧
    (reach [UpdOp.updBegin cfgZero manifestEx,
            UpdOp.fileBegin ⟨"fw.bin", 4, 0⟩ (fun _ _ _ => true),
            UpdOp.fileBegin ⟨"fs.bin", 4, 0⟩ (fun _ _ _ => true)]).fs_part.done = true :=
  ⟨(fs_dir_part_never_done [UpdOp.updBegin cfgZero manifestEx,
      UpdOp.fileBegin ⟨"fw.bin", 4, 0⟩ (fun _ _ _ => true),
      UpdOp.fileBegin ⟨"fs.bin", 4, 0⟩ (fun _ _ _ => true)] cfgZero).1,
   (fs_dir_part_never_done [UpdOp.updBegin cfgZero manifestEx,
      UpdOp.fileBegin ⟨"fw.bin", 4, 0⟩ (fun _ _ _ => true),
      UpdOp.fileBegin ⟨"fs.bin", 4, 0⟩ (fun _ _ _ => true)] cfgZero).2 (by decide)⟩

/-- Reading back the part slot just written. -/
theorem getPart_setPart (ctx : UpdCtx) (t : PartTag) (p : PartInfo) :
    getPart (setPart ctx t p) t = p := by
  cases t <;> rfl

/-- C4 (Idempotence and resumability of begin): begin for a file matching a
part already done returns SKIP with no flash erase or write and the part
untouched; begin for a not-done part whose flash region already matches the
expected digest marks it done and returns SKIP with no erase or write; and a
begin...end run that completes a part followed by a second begin on the same
part yields SKIP. -/
theorem file_begin_idempotent_resumable (ctx : UpdCtx) (fi : FileArg)
    (verify : VerifyOracle) :
    (fi.name = ctx.fw_part.file_name → ctx.fw_part.done = true →
      (mgos_upd_file_begin ctx fi verify).action = UpdFileAction.SKIP ∧
      (mgos_upd_file_begin ctx fi verify).ctx.fw_part = ctx.fw_part ∧
      (mgos_upd_file_begin ctx fi verify).writes = [] ∧
      (mgos_upd_file_begin ctx fi verify).erases = []) ∧
    (fi.name = ctx.fw_part.file_name → ctx.fw_part.done = false →
      verify ctx.fw_part.addr fi.size ctx.fw_part.sha1_sum = true →
      (mgos_upd_file_begin ctx fi verify).action = UpdFileAction.SKIP ∧
      (mgos_upd_file_begin ctx fi verify).ctx.fw_part.done = true ∧
      (mgos_upd_file_begin ctx fi verify).writes = [] ∧
      (mgos_upd_file_begin ctx fi verify).erases = []) ∧
    (¬ fi.name = ctx.fw_part.file_name → fi.name = ctx.fs_part.file_name →
      ctx.fs_part.done = true →
      (mgos_upd_file_begin ctx fi verify).action = UpdFileAction.SKIP ∧
      (mgos_upd_file_begin ctx fi verify).ctx.fs_part = ctx.fs_part ∧
      (mgos_upd_file_begin ctx fi verify).writes = [] ∧
      (mgos_upd_file_begin ctx fi verify).erases = []) ∧
    (¬ fi.name = ctx.fw_part.file_name → fi.name = ctx.fs_part.file_name →
      ctx.fs_part.done = false →
      verify ctx.fs_part.addr fi.size ctx.fs_part.sha1_sum = true →
      (mgos_upd_file_begin ctx fi verify).action = UpdFileAction.SKIP ∧
      (mgos_upd_file_begin ctx fi verify).ctx.fs_part.done = true ∧
      (mgos_upd_file_begin ctx fi verify).writes = [] ∧
      (mgos_upd_file_begin ctx fi verify).erases = []) ∧
    (fi.name = ctx.fw_part.file_name → ctx.fw_part.done = false →
      (mgos_upd_file_begin
        (mgos_upd_file_end (mgos_upd_file_begin ctx fi verify).ctx fi 0
          (fun _ _ _ => true)).2
        fi verify).action = UpdFileAction.SKIP) := by
  refine ⟨?_, ?_, ?_, ?_, ?_⟩
  · intro hname hdone
    simp [mgos_upd_file_begin, prepare_to_write, getPart, hname, hdone]
  · intro hname hdone hv
    simp [mgos_upd_file_begin, prepare_to_write, getPart, setPart, hname, hdone, hv]
  · intro hn1 hname hdone
    have hn1' : ¬ ctx.fs_part.file_name = ctx.fw_part.file_name := by
      rw [← hname]
      exact hn1
    simp [mgos_upd_file_begin, prepare_to_write, getPart, hn1', hname, hdone]
  · intro hn1 hname hdone hv
    have hn1' : ¬ ctx.fs_part.file_name = ctx.fw_part.file_name := by
      rw [← hname]
      exact hn1
    simp [mgos_upd_file_begin, prepare_to_write, getPart, setPart, hn1', hname, hdone, hv]
  · intro hname hdone
    by_cases hv : verify ctx.fw_part.addr fi.size ctx.fw_part.sha1_sum = true
    · simp [mgos_upd_file_begin, prepare_to_write, mgos_upd_file_end, getPart, setPart,
        hname, hdone, hv]
    · simp [mgos_upd_file_begin, prepare_to_write, mgos_upd_file_end, getPart, setPart,
        hname, hdone, hv]

/-- Witness for file_begin_idempotent_resumable at concrete contexts. -/
theorem file_begin_idempotent_resumable_witness :
    (mgos_upd_file_begin { UpdCtx.init with
        fw_part := { PartInfo.init with file_name := "fw.bin", done := true } }
      ⟨"fw.bin", 4, 0⟩ (fun _ _ _ => false)).action = UpdFileAction.SKIP ∧
    (mgos_upd_file_begin { UpdCtx.init with
        fw_part := { PartInfo.init with file_name := "fw.bin" } }
      ⟨"fw.bin", 4, 0⟩ (fun _ _ _ => true)).ctx.fw_part.done = true ∧
    (mgos_upd_file_begin { UpdCtx.init with
        fs_part := { PartInfo.init with file_name := "fs.bin" } }
      ⟨"fs.bin", 4, 0⟩ (fun _ _ _ => true)).ctx.fs_part.done = true ∧
    (mgos_upd_file_begin
      (mgos_upd_file_end (mgos_upd_file_begin { UpdCtx.init with
          fw_part := { PartInfo.init with file_name := "fw.bin" } }
        ⟨"fw.bin", 4, 0⟩ (fun _ _ _ => false)).ctx ⟨"fw.bin", 4, 0⟩ 0
        (fun _ _ _ => true)).2
      ⟨"fw.bin", 4, 0⟩ (fun _ _ _ => false)).action = UpdFileAction.SKIP := by
  refine ⟨?_, ?_, ?_, ?_⟩
  · exact ((file_begin_idempotent_resumable { UpdCtx.init with
      fw_part := { PartInfo.init with file_name := "fw.bin", done := true } }
      ⟨"fw.bin", 4, 0⟩ (fun _ _ _ => false)).1 rfl rfl).1
  · exact ((file_begin_idempotent_resumable { UpdCtx.init with
      fw_part := { PartInfo.init with file_name := "fw.bin" } }
      ⟨"fw.bin", 4, 0⟩ (fun _ _ _ => true)).2.1 rfl rfl rfl).2.1
  · exact ((file_begin_idempotent_resumable { UpdCtx.init with
      fs_part := { PartInfo.init with file_name := "fs.bin" } }
      ⟨"fs.bin", 4, 0⟩ (fun _ _ _ => true)).2.2.2.1 (by decide) rfl rfl rfl).2.1
  · exact (file_begin_idempotent_resumable { UpdCtx.init with
      fw_part := { PartInfo.init with file_name := "fw.bin" } }
      ⟨"fw.bin", 4, 0⟩ (fun _ _ _ => false)).2.2.2.2 rfl rfl

/-- C7 (End-of-file integrity check): with zero trailing bytes, file end
verifies the checksum over the current part region at the declared file
size; on mismatch it returns -1, sets the status message to
"Invalid checksum" and leaves every part (in particular its done flag) and
the boot configuration untouched; on match it marks the current part done
and returns 0. -/
theorem file_end_checksum (ctx : UpdCtx) (fi : FileArg) (t : PartTag)
    (verify : VerifyOracle) (s : BootSys) (hc : ctx.current_part = some t) :
    (verify (getPart ctx t).addr fi.size (getPart ctx t).sha1_sum = false →
      (mgos_upd_file_end ctx fi 0 verify).1 = -1 ∧
      (mgos_upd_file_end ctx fi 0 verify).2.status_msg = some "Invalid checksum" ∧
      (mgos_upd_file_end ctx fi 0 verify).2.fw_part = ctx.fw_part ∧
      (mgos_upd_file_end ctx fi 0 verify).2.fs_part = ctx.fs_part ∧
      (mgos_upd_file_end ctx fi 0 verify).2.fs_dir_part = ctx.fs_dir_part) ∧
    (verify (getPart ctx t).addr fi.size (getPart ctx t).sha1_sum = true →
      (mgos_upd_file_end ctx fi 0 verify).1 = 0 ∧
      (getPart (mgos_upd_file_end ctx fi 0 verify).2 t).done = true) ∧
    (mgos_upd_file_end_sys s ctx fi 0 verify).2.2 = s := by
  refine ⟨?_, ?_, rfl⟩
  · intro hv
    simp [mgos_upd_file_end, hc, hv]
  · intro hv
    simp [mgos_upd_file_end, hc, hv, getPart_setPart]

/-- Witness for file_end_checksum on a concrete context, with a mismatching
and a matching checksum oracle. -/
theorem file_end_checksum_witness :
    (mgos_upd_file_end { UpdCtx.init with current_part := some PartTag.fw }
      ⟨"fw.bin", 4, 4⟩ 0 (fun _ _ _ => false)).1 = -1 ∧
    (getPart (mgos_upd_file_end { UpdCtx.init with current_part := some PartTag.fw }
      ⟨"fw.bin", 4, 4⟩ 0 (fun _ _ _ => true)).2 PartTag.fw).done = true ∧
    (mgos_upd_file_end_sys ⟨cfgZero, none, 0⟩
      { UpdCtx.init with current_part := some PartTag.fw }
      ⟨"fw.bin", 4, 4⟩ 0 (fun _ _ _ => true)).2.2 = ⟨cfgZero, none, 0⟩ := by
  refine ⟨?_, ?_, ?_⟩
  · exact ((file_end_checksum { UpdCtx.init with current_part := some PartTag.fw }
      ⟨"fw.bin", 4, 4⟩ PartTag.fw (fun _ _ _ => false) ⟨cfgZero, none, 0⟩ rfl).1 rfl).1
  · exact ((file_end_checksum { UpdCtx.init with current_part := some PartTag.fw }
      ⟨"fw.bin", 4, 4⟩ PartTag.fw (fun _ _ _ => true) ⟨cfgZero, none, 0⟩ rfl).2.1 rfl).2
  · exact (file_end_checksum { UpdCtx.init with current_part := some PartTag.fw }
      ⟨"fw.bin", 4, 4⟩ PartTag.fw (fun _ _ _ => true) ⟨cfgZero, none, 0⟩ rfl).2.2

/-- C5 counterexample: the claim that every Boot Configuration Manager
operation reads the persistent BootConfig once at the start of the operation
is false — get_rboot_config is a process-wide lazily-initialized cache, so
an operation running with a warm cache performs no store read at all. -/
theorem boot_ops_read_not_per_operation :
    ¬ (∀ s : BootSys, (mgos_upd_boot_commit_sys s).reads = s.reads + 1) := by
  intro h
  have h5 := h ⟨cfgZero, some cfgZero, 5⟩
  simp [mgos_upd_boot_commit_sys, get_rboot_config_sys, cfgZero] at h5

/-- C5 (amended): Boot Configuration Manager operations obtain BootConfig
through a process-wide lazily-initialized snapshot — the persistent store is
read only on the first access of the process lifetime and the cached
snapshot is reused across the finalize/commit/revert boundary — and every
operation that mutates the configuration persists the mutated snapshot to
the store before returning (finalize additionally checks part completion
before the configuration is read, touching nothing on failure). -/
theorem boot_ops_cached_snapshot_persist (s : BootSys) (ctx : UpdCtx) :
    (s.cache = none → (get_rboot_config_sys s).2.reads = s.reads + 1 ∧
      (get_rboot_config_sys s).1 = s.store) ∧
    (∀ g, s.cache = some g → (get_rboot_config_sys s).2 = s ∧
      (get_rboot_config_sys s).1 = g) ∧
    (mgos_upd_boot_commit_sys s).reads = (get_rboot_config_sys s).2.reads ∧
    (mgos_upd_boot_revert_sys s).reads = (get_rboot_config_sys s).2.reads ∧
    ((get_rboot_config_sys s).1.fw_updated = true →
      (mgos_upd_boot_commit_sys s).store =
        (mgos_upd_boot_commit (get_rboot_config_sys s).1).1 ∧
      (mgos_upd_boot_commit_sys s).cache =
        some (mgos_upd_boot_commit (get_rboot_config_sys s).1).1 ∧
      (mgos_upd_boot_revert_sys s).store =
        (mgos_upd_boot_revert (get_rboot_config_sys s).1).1 ∧
      (mgos_upd_boot_revert_sys s).cache =
        some (mgos_upd_boot_revert (get_rboot_config_sys s).1).1) ∧
    (ctx.fw_part.done = true → (ctx.fs_part.done = true ∨ ctx.fs_dir_part.done = true) →
      (mgos_upd_finalize_sys ctx s).2.store =
        (mgos_upd_finalize ctx (get_rboot_config_sys s).1).2.1 ∧
      (mgos_upd_finalize_sys ctx s).2.cache =
        some (mgos_upd_finalize ctx (get_rboot_config_sys s).1).2.1) ∧
    (ctx.fw_part.done = false → (mgos_upd_finalize_sys ctx s).2 = s) := by
  refine ⟨?_, ?_, ?_, ?_, ?_, ?_, ?_⟩
  · intro h
    simp [get_rboot_config_sys, h]
  · intro g h
    simp [get_rboot_config_sys, h]
  · by_cases hu : (get_rboot_config_sys s).1.fw_updated = false
    · simp [mgos_upd_boot_commit_sys, hu]
    · simp [mgos_upd_boot_commit_sys, hu, rboot_set_config_sys]
  · by_cases hu : (get_rboot_config_sys s).1.fw_updated = false
    · simp [mgos_upd_boot_revert_sys, hu]
    · simp [mgos_upd_boot_revert_sys, hu, rboot_set_config_sys]
  · intro hu
    have hu' : ¬ (get_rboot_config_sys s).1.fw_updated = false := by
      simp [hu]
    simp [mgos_upd_boot_commit_sys, mgos_upd_boot_revert_sys, mgos_upd_boot_commit,
      mgos_upd_boot_revert, rboot_set_config_sys, hu']
  · intro h1 h2
    have hfs : ¬ (ctx.fs_part.done = false ∧ ctx.fs_dir_part.done = false) := by
      rcases h2 with h | h <;> simp [h]
    simp [mgos_upd_finalize_sys, h1, hfs, rboot_set_config_sys]
  · intro h
    simp [mgos_upd_finalize_sys, h]

/-- Witness for boot_ops_cached_snapshot_persist: a cold cache is read once,
a commit on a pending update persists its result, and a slot-switching
finalize persists its result. -/
theorem boot_ops_cached_snapshot_persist_witness :
    (get_rboot_config_sys ⟨{ cfgZero with fw_updated := true }, none, 0⟩).2.reads =
      (⟨{ cfgZero with fw_updated := true }, none, 0⟩ : BootSys).reads + 1 ∧
    (mgos_upd_boot_commit_sys ⟨{ cfgZero with fw_updated := true }, none, 0⟩).store =
      (mgos_upd_boot_commit
        (get_rboot_config_sys ⟨{ cfgZero with fw_updated := true }, none, 0⟩).1).1 ∧
    (mgos_upd_finalize_sys { UpdCtx.init with
        fw_part := { PartInfo.init with done := true },
        fs_part := { PartInfo.init with done := true },
        slot_to_write := 1 } ⟨{ cfgZero with fw_updated := true }, none, 0⟩).2.store =
      (mgos_upd_finalize { UpdCtx.init with
        fw_part := { PartInfo.init with done := true },
        fs_part := { PartInfo.init with done := true },
        slot_to_write := 1 }
        (get_rboot_config_sys ⟨{ cfgZero with fw_updated := true }, none, 0⟩).1).2.1 := by
  refine ⟨?_, ?_, ?_⟩
  · exact ((boot_ops_cached_snapshot_persist ⟨{ cfgZero with fw_updated := true }, none, 0⟩
      UpdCtx.init).1 rfl).1
  · exact ((boot_ops_cached_snapshot_persist ⟨{ cfgZero with fw_updated := true }, none, 0⟩
      UpdCtx.init).2.2.2.2.1 rfl).1
  · exact ((boot_ops_cached_snapshot_persist ⟨{ cfgZero with fw_updated := true }, none, 0⟩
      { UpdCtx.init with
        fw_part := { PartInfo.init with done := true },
        fs_part := { PartInfo.init with done := true },
        slot_to_write := 1 }).2.2.2.2.2.1 rfl (Or.inl rfl)).1
